import Mathlib

/-!
Shallow embedding of the `migrate` Go package (sequential schema-migration
executor).  Pure data and control flow are translated directly from the
source; external effects (filesystem, database rows, SQL transactions) are
modelled as explicit state records with injectable failure outcomes.
-/

namespace Migrate

/-! ## Error format strings (constants of the Go source) -/

def errParamIsNotFunc : String := "param is not func"

def errSchemaRecordIsEmpty (n : Nat) : String :=
  "schema record " ++ toString n ++ " is empty"

def errSchemaItemIsDuplicate (s : String) : String :=
  "schema record " ++ s ++ " is duplicate"

def errFuncNameIsDuplicate (s : String) : String :=
  "func name " ++ s ++ " is duplicate"

def errFileNameIsDuplicate (s : String) : String :=
  "file name " ++ s ++ " is duplicate"

def errFileIsSameAsFunc (s : String) : String :=
  "file " ++ s ++ " is same as func"

def errFileNameNotExist (s : String) : String :=
  "file name " ++ s ++ " not exist"

def errFuncNameNotExist (s : String) : String :=
  "func name " ++ s ++ " not exist"

def errFindDirtyIndex (n : Nat) : String :=
  "find dirty version " ++ toString n

def errSchemaVersionLargeRecord (n : Nat) : String :=
  "schema version " ++ toString n ++ " large than current record"

def errFileTypeNotSupported (s : String) : String :=
  "file type " ++ s ++ " not supported"

def errFuncFormatNotCorrect (s : String) : String :=
  "func format " ++ s ++ " not correct, should be func(ctx context.Context) error"

def errQueryWithIndex (e : String) (idx : Nat) : String :=
  e ++ "; query err with index is " ++ toString idx

def sqlFileExt : String := ".sql"

def funcExt : String := ""

def defaultSchemaTableName : String := "schema_migrations"

def defaultSchemaDir : String := "./migrations"

def defaultSchemaFile : String := "migrate.txt"

/-! ## Data model -/

/-- The single persisted row of the schema table: `version` and `dirty`. -/
structure Schema where
  version : Nat
  dirty : Bool
deriving DecidableEq, Repr

/-- A handler: index plus the (deterministic) outcome of its `Exec`
(`none` = success, `some e` = the error it returns). -/
structure Handler where
  index : Nat
  exec : Option String
deriving DecidableEq, Repr

/-- Outcome script of one SQL transaction environment:
whether `BeginTx`, `tx.Exec` and `tx.Commit` fail. -/
structure TxBehavior where
  beginErr : Option String
  execErr : Option String
  commitErr : Option String
deriving DecidableEq, Repr

/-- `sqlHandler.Exec` (src/sql.go): empty query succeeds trivially;
begin failure is returned as-is; statement failure rolls back and returns
the cause wrapped with the handler's index; the commit result is
discarded (`_ = tx.Commit()`), so the commit outcome never affects the
return value. -/
def sqlHandlerExec (index : Nat) (query : String) (tx : TxBehavior) : Option String :=
  if query = "" then none
  else
    match tx.beginErr with
    | some e => some e
    | none =>
      match tx.execErr with
      | some e => some (errQueryWithIndex e index)
      | none => none

/-- `newSQLHandler`: a handler whose `Exec` outcome is that of
`sqlHandlerExec` on its query under transaction behavior `tx`. -/
def newSQLHandler (index : Nat) (query : String) (tx : TxBehavior) : Handler :=
  ⟨index, sqlHandlerExec index query tx⟩

/-- A method discovered by reflection on a registered object:
its name, whether its reflected kind is a function, whether its signature
is `func(context.Context) error`, and the outcome of calling it. -/
structure GoMethod where
  name : String
  isFunc : Bool
  rightSig : Bool
  exec : Option String
deriving DecidableEq, Repr

/-- `checkMethodFormat`: non-function values are rejected with
`ErrParamIsNotFunc`; a wrong arity or wrong parameter/return types yield
the func-format error naming the method. -/
def checkMethodFormat (mh : GoMethod) : Option String :=
  if mh.isFunc = false then some errParamIsNotFunc
  else if mh.rightSig = false then some (errFuncFormatNotCorrect mh.name)
  else none

/-- `newGoHandler`: a handler whose `Exec` outcome is the result of
calling the bound method. -/
def newGoHandler (index : Nat) (mh : GoMethod) : Handler :=
  ⟨index, mh.exec⟩

/-- A directory entry as returned by `os.ReadDir`. -/
structure Entry where
  name : String
  isDir : Bool
deriving DecidableEq, Repr

/-- Result of opening the schema list file. -/
inductive OpenResult where
  | ok (lines : List String)
  | notExist
  | err (e : String)
deriving DecidableEq, Repr

/-- The filesystem as seen by the engine: the schema-list open outcome
(already tokenized into scanner lines), failure scripts for `MkdirAll`
and `Create`, the migrations-directory entries, and the raw content of
each file path. -/
structure FS where
  openSchema : OpenResult
  mkdirErr : Option String
  createErr : Option String
  entries : List Entry
  content : String → Except String String

/-! ## Item list parser (`getSchemaItems`) -/

/-- The scanner loop of `getSchemaItems`: `acc` holds the accepted items
(reversed), `idx` the number of lines processed so far.  An empty line
that is the last line breaks out of the loop (the trailing scan fails);
an empty line followed by a further line is a fatal empty-record error
citing its 1-based position.  A line already seen is a duplicate error. -/
def scanGo : List String → List String → Nat → Except String (List String)
  | [], acc, _ => .ok acc.reverse
  | line :: rest, acc, idx =>
    if line = "" then
      match rest with
      | [] => .ok acc.reverse
      | _ :: _ => .error (errSchemaRecordIsEmpty (idx + 1))
    else if line ∈ acc then .error (errSchemaItemIsDuplicate line)
    else scanGo rest (line :: acc) (idx + 1)

/-- `getSchemaItems`: opens the schema list.  If it does not exist, the
parent directory and an empty file are created (the boolean component
records that this creation happened) and the empty file scans to an empty
item list; any other open error is returned.  Otherwise the scanner loop
runs over the lines. -/
def getSchemaItems (fs : FS) : Except String (List String) × Bool :=
  match fs.openSchema with
  | .err e => (.error e, false)
  | .notExist =>
    match fs.mkdirErr with
    | some e => (.error e, false)
    | none =>
      match fs.createErr with
      | some e => (.error e, false)
      | none => (.ok [], true)
  | .ok lines => (scanGo lines [] 0, false)

/-! ## `path.Ext` -/

/-- Helper for `pathExt`: walks the reversed character list, collecting
the suffix until the final dot; a slash or the start of the string means
there is no extension. -/
def extFromRev : List Char → List Char → Option (List Char)
  | _, [] => none
  | acc, c :: rest =>
    if c = '/' then none
    else if c = '.' then some (c :: acc)
    else extFromRev (c :: acc) rest

/-- Go `path.Ext`: the suffix beginning at the final dot in the final
slash-separated element; empty if there is no dot. -/
def pathExt (s : String) : String :=
  match extFromRev [] s.toList.reverse with
  | none => ""
  | some l => ⟨l⟩

/-! ## Database state (`schema` table plus failure scripts) -/

/-- The database as seen by the engine: the (at most one) row of the
schema table, plus failure scripts for `CREATE TABLE`, the record query,
the default insert, and the per-index `UPDATE` statements of the
execution loop. -/
structure DBState where
  row : Option Schema
  createTableErr : Option String
  queryErr : Option String
  insertErr : Option String
  versionUpdFail : Nat → Option String
  dirtyUpdFail : Nat → Option String

/-- Effect of `UPDATE %s SET version = ?`: sets the version of the
existing row, leaving `dirty` unchanged (a missing row is unaffected). -/
def setVersion (db : DBState) (i : Nat) : DBState :=
  { db with row := db.row.map (fun r => { r with version := i }) }

/-- Effect of `UPDATE %s SET version = ?, dirty = ?` with dirty = 1. -/
def setDirty (db : DBState) (i : Nat) : DBState :=
  { db with row := db.row.map (fun _ => ⟨i, true⟩) }

/-- `getSchemaRecord`: creates the table (idempotent), queries the single
row; a query error is returned; a missing row causes the default
`{version 0, dirty false}` row to be inserted and returned. -/
def getSchemaRecord (db : DBState) : Except String (Schema × DBState) :=
  match db.createTableErr with
  | some e => .error e
  | none =>
    match db.queryErr with
    | some e => .error e
    | none =>
      match db.row with
      | some s => .ok (s, db)
      | none =>
        match db.insertErr with
        | some e => .error e
        | none => .ok (⟨0, false⟩, { db with row := some ⟨0, false⟩ })

/-! ## Engine state and registration surface -/

/-- The `migrate` struct: configuration, registered objects (each a list
of reflected methods, in reflection order), and the accumulated handler
list.  The handler list persists across calls on the same instance. -/
structure MigrateState where
  schemaDir : String
  schemaFile : String
  schemaTable : String
  applyObjects : List (List GoMethod)
  handlers : List Handler

/-- `Option` of the Go constructor (functional option pattern). -/
def GoOption := MigrateState → MigrateState

/-- `WithSchemaDir`. -/
def WithSchemaDir (dir : String) : GoOption :=
  fun m => { m with schemaDir := dir }

/-- `WithSchemaFile`. -/
def WithSchemaFile (file : String) : GoOption :=
  fun m => { m with schemaFile := file }

/-- `WithSchemaTable`. -/
def WithSchemaTable (tableName : String) : GoOption :=
  fun m => { m with schemaTable := tableName }

/-- `NewMigrate`: defaults, then the options applied in order. -/
def NewMigrate (options : List GoOption) : MigrateState :=
  options.foldl (fun m o => o m)
    ⟨defaultSchemaDir, defaultSchemaFile, defaultSchemaTableName, [], []⟩

/-- `AddHandlers`: appends to the instance's handler list. -/
def AddHandlers (m : MigrateState) (hs : List Handler) : MigrateState :=
  { m with handlers := m.handlers ++ hs }

/-- `ApplyObjects`: appends to the instance's registered objects. -/
def ApplyObjects (m : MigrateState) (objs : List (List GoMethod)) : MigrateState :=
  { m with applyObjects := m.applyObjects ++ objs }

/-! ## Method and file-name collection -/

/-- Loop of `getMethods` over all reflected methods of all registered
objects: a repeated method name is a fatal duplicate error. -/
def getMethodsGo : List GoMethod → List GoMethod → Except String (List GoMethod)
  | [], acc => .ok acc.reverse
  | mt :: rest, acc =>
    if mt.name ∈ acc.map GoMethod.name then .error (errFuncNameIsDuplicate mt.name)
    else getMethodsGo rest (mt :: acc)

/-- `getMethods`. -/
def getMethods (objects : List (List GoMethod)) : Except String (List GoMethod) :=
  getMethodsGo objects.flatten []

/-- Loop of `getFileNames` over the directory entries: directories are
skipped; a repeated file name is a fatal duplicate error. -/
def getFileNamesGo : List Entry → List String → Except String (List String)
  | [], acc => .ok acc.reverse
  | e :: rest, acc =>
    if e.isDir then getFileNamesGo rest acc
    else if e.name ∈ acc then .error (errFileNameIsDuplicate e.name)
    else getFileNamesGo rest (e.name :: acc)

/-- `getFileNames`. -/
def getFileNames (entries : List Entry) : Except String (List String) :=
  getFileNamesGo entries []

/-- The loop in `Run` that rejects any file name that is also a method
name (`file %s is same as func`). -/
def checkFileFuncCollision (fns : List String) (mm : List GoMethod) : Option String :=
  match fns.find? (fun f => (mm.find? (fun mt => mt.name == f)).isSome) with
  | some f => some (errFileIsSameAsFunc f)
  | none => none

/-! ## Handler resolution (step 5 of `Run`) -/

/-- Lookup environment for resolution and execution: the filesystem, the
per-handler-index transaction behavior, and the database. -/
structure Env where
  fs : FS
  txOf : Nat → TxBehavior
  db : DBState

/-- The resolution loop of `Run`: for each item from position `i`
(0-based) onward, a `.sql` item must be a known file name and its content
loads into a SQL handler with index `i+1`; a suffix-free item must be a
known, well-formed method and binds a Go handler with index `i+1`; any
other suffix is unsupported.  Returns the handlers appended so far and
the first error, if any (on error, the already-built prefix has still
been appended to the engine's handler list, as in the source). -/
def resolveFrom (env : Env) (dir : String) (mm : List GoMethod) (fns : List String) :
    List String → Nat → List Handler × Option String
  | [], _ => ([], none)
  | item :: rest, i =>
    if pathExt item = sqlFileExt then
      if item ∈ fns then
        match env.fs.content (dir ++ "/" ++ item) with
        | .error e => ([], some e)
        | .ok sqlContent =>
          ((newSQLHandler (i + 1) sqlContent (env.txOf (i + 1))) ::
              (resolveFrom env dir mm fns rest (i + 1)).1,
            (resolveFrom env dir mm fns rest (i + 1)).2)
      else ([], some (errFileNameNotExist item))
    else if pathExt item = funcExt then
      match mm.find? (fun mt => mt.name == item) with
      | none => ([], some (errFuncNameNotExist item))
      | some mt =>
        match checkMethodFormat mt with
        | some e => ([], some e)
        | none =>
          ((newGoHandler (i + 1) mt) :: (resolveFrom env dir mm fns rest (i + 1)).1,
            (resolveFrom env dir mm fns rest (i + 1)).2)
    else ([], some (errFileTypeNotSupported item))

/-! ## Execution loop (`migrate.run`) -/

/-- `migrate.run`: executes the handlers in order.  On handler failure,
the dirty update (`version = handler index, dirty = 1`) is attempted: its
own failure is returned instead, otherwise the handler's error is
returned unchanged.  On handler success the version update
(`version = handler index`) is attempted and its failure returned.  The
third component is the trace of handler indices whose `Exec` ran. -/
def run : DBState → List Handler → DBState × Option String × List Nat
  | db, [] => (db, none, [])
  | db, h :: rest =>
    match h.exec with
    | some e =>
      match db.dirtyUpdFail h.index with
      | some ie => (db, some ie, [h.index])
      | none => (setDirty db h.index, some e, [h.index])
    | none =>
      match db.versionUpdFail h.index with
      | some ie => (db, some ie, [h.index])
      | none =>
        ((run (setVersion db h.index) rest).1,
          (run (setVersion db h.index) rest).2.1,
          h.index :: (run (setVersion db h.index) rest).2.2)

/-! ## `Run` -/

/-- Result of one `Run`: the engine state after the call (its handler
list included), the database state, the returned error, and the trace of
executed handler indices. -/
structure RunOut where
  engine : MigrateState
  db : DBState
  err : Option String
  trace : List Nat

/-- Steps 5–6 of `Run`: build handlers from the first unapplied item
onward (appending them to the instance's existing list), then execute the
whole accumulated handler list. -/
def buildAndRun (env : Env) (m : MigrateState) (mm : List GoMethod) (fns : List String)
    (items : List String) (v : Nat) (db1 : DBState) : RunOut :=
  match resolveFrom env m.schemaDir mm fns (items.drop v) v with
  | (newHs, some e) => ⟨{ m with handlers := m.handlers ++ newHs }, db1, some e, []⟩
  | (newHs, none) =>
    ⟨{ m with handlers := m.handlers ++ newHs },
      (run db1 (m.handlers ++ newHs)).1,
      (run db1 (m.handlers ++ newHs)).2.1,
      (run db1 (m.handlers ++ newHs)).2.2⟩

/-- Step 4 of `Run` after the record is read: a dirty record or a record
version larger than the item count aborts before anything executes. -/
def afterRecord (env : Env) (m : MigrateState) (mm : List GoMethod) (fns : List String)
    (items : List String) (r : Schema) (db1 : DBState) : RunOut :=
  if r.dirty then ⟨m, db1, some (errFindDirtyIndex r.version), []⟩
  else if items.length < r.version then
    ⟨m, db1, some (errSchemaVersionLargeRecord r.version), []⟩
  else buildAndRun env m mm fns items r.version db1

/-- `migrate.Run`: parse the item list, collect methods and file names,
reject file/func name collisions, read the schema record, then resolve
and execute. -/
def Run (env : Env) (m : MigrateState) : RunOut :=
  match (getSchemaItems env.fs).1 with
  | .error e => ⟨m, env.db, some e, []⟩
  | .ok items =>
    match getMethods m.applyObjects with
    | .error e => ⟨m, env.db, some e, []⟩
    | .ok mm =>
      match getFileNames env.fs.entries with
      | .error e => ⟨m, env.db, some e, []⟩
      | .ok fns =>
        match checkFileFuncCollision fns mm with
        | some e => ⟨m, env.db, some e, []⟩
        | none =>
          match getSchemaRecord env.db with
          | .error e => ⟨m, env.db, some e, []⟩
          | .ok (r, db1) => afterRecord env m mm fns items r db1

/-! ## Concrete instances (spec §8 scenario data) -/

/-- The `Seed` migration method, resolvable and successful. -/
def seedMethod : GoMethod := ⟨"Seed", true, true, none⟩

/-- Filesystem of the scenario `["1_create.sql", "Seed", "2_index.sql"]`. -/
def wfs : FS :=
  ⟨.ok ["1_create.sql", "Seed", "2_index.sql"], none, none,
    [⟨"1_create.sql", false⟩, ⟨"2_index.sql", false⟩, ⟨"migrate.txt", false⟩],
    fun _ => .ok "CREATE TABLE t (x int);"⟩

/-- A fresh database: row `{version 0, dirty false}`, no injected failures. -/
def wdb : DBState := ⟨some ⟨0, false⟩, none, none, none, fun _ => none, fun _ => none⟩

/-- All-success transaction behavior. -/
def wtx : Nat → TxBehavior := fun _ => ⟨none, none, none⟩

/-- Scenario environment. -/
def wenv : Env := ⟨wfs, wtx, wdb⟩

/-- A fresh engine with the `Seed` method registered. -/
def wm : MigrateState := ApplyObjects (NewMigrate []) [[seedMethod]]

/-- Methods collected from `wm`. -/
def wmm : List GoMethod := [seedMethod]

/-- File names collected from `wfs`. -/
def wfns : List String := ["1_create.sql", "2_index.sql", "migrate.txt"]

/-- The three handlers the scenario resolves to (all successful). -/
def whs : List Handler := [⟨1, none⟩, ⟨2, none⟩, ⟨3, none⟩]

/-- Item list whose final line is blank. -/
def c6fs : FS := ⟨.ok ["a.sql", ""], none, none, [], fun _ => .ok ""⟩

/-- Environment whose item list has a blank line at position 2 followed
by a further line. -/
def c6env : Env := ⟨⟨.ok ["a.sql", "", "b.sql"], none, none, [], fun _ => .ok ""⟩, wtx, wdb⟩

/-- Environment over the trailing-blank list `c6fs`. -/
def c6env2 : Env := ⟨c6fs, wtx, wdb⟩

/-- Environment whose item list has a blank line at position 1 and a
duplicate identifier later. -/
def c7env : Env := ⟨⟨.ok ["", "x", "a", "a"], none, none, [], fun _ => .ok ""⟩, wtx, wdb⟩

/-- Environment whose item list repeats `1_create.sql`. -/
def c7denv : Env :=
  ⟨⟨.ok ["1_create.sql", "1_create.sql"], none, none, [], fun _ => .ok ""⟩, wtx, wdb⟩

/-- Filesystem where the item-list file does not exist. -/
def c8fsN : FS := ⟨.notExist, none, none, [], fun _ => .ok ""⟩

/-- Filesystem where opening the item-list file fails for another reason. -/
def c8fsE : FS := ⟨.err "permission denied", none, none, [], fun _ => .ok ""⟩

/-! ## Lemmas about the scanner loop -/

lemma scanGo_append (pre : List String) :
    ∀ (rest acc : List String) (idx : Nat),
      (∀ l ∈ pre, l ≠ "") → pre.Nodup → (∀ l ∈ pre, l ∉ acc) →
      scanGo (pre ++ rest) acc idx = scanGo rest (pre.reverse ++ acc) (idx + pre.length) := by
  induction pre with
  | nil => intro rest acc idx _ _ _; simp [scanGo]
  | cons p ps ih =>
    intro rest acc idx hne hnd hdisj
    have hp : p ≠ "" := hne p (List.mem_cons_self p ps)
    have hpacc : p ∉ acc := hdisj p (List.mem_cons_self p ps)
    have hstep : scanGo (p :: (ps ++ rest)) acc idx = scanGo (ps ++ rest) (p :: acc) (idx + 1) := by
      simp [scanGo, hp, hpacc]
    rw [List.cons_append, hstep]
    rw [ih rest (p :: acc) (idx + 1) (fun l hl => hne l (List.mem_cons_of_mem p hl))
      (List.Nodup.of_cons hnd)
      (fun l hl => by
        intro hmem
        rcases List.mem_cons.mp hmem with h | h
        · exact (List.nodup_cons.mp hnd).1 (h ▸ hl)
        · exact hdisj l (List.mem_cons_of_mem p hl) h)]
    congr 1
    · simp
    · simp only [List.length_cons]
      omega

lemma scanGo_blank_last (acc : List String) (idx : Nat) :
    scanGo [""] acc idx = .ok acc.reverse := by
  simp [scanGo]

lemma scanGo_blank_mid (s : String) (suf acc : List String) (idx : Nat) :
    scanGo ("" :: s :: suf) acc idx = .error (errSchemaRecordIsEmpty (idx + 1)) := by
  simp [scanGo]

lemma scanGo_dup (d : String) (suf acc : List String) (idx : Nat)
    (hd : d ≠ "") (hacc : d ∈ acc) :
    scanGo (d :: suf) acc idx = .error (errSchemaItemIsDuplicate d) := by
  simp [scanGo, hd, hacc]

/-! ## Lemmas about the execution loop -/

/-- The cumulative effect on the database of a list of successful
handlers: each one sets `version` to its own index, in order. -/
def foldSet (db : DBState) (hs : List Handler) : DBState :=
  hs.foldl (fun d h => setVersion d h.index) db

lemma foldSet_nil (db : DBState) : foldSet db [] = db := rfl

lemma foldSet_cons (db : DBState) (h : Handler) (hs : List Handler) :
    foldSet db (h :: hs) = foldSet (setVersion db h.index) hs := rfl

lemma setVersion_versionUpdFail (db : DBState) (i : Nat) :
    (setVersion db i).versionUpdFail = db.versionUpdFail := rfl

lemma foldSet_versionUpdFail (hs : List Handler) :
    ∀ db : DBState, (foldSet db hs).versionUpdFail = db.versionUpdFail := by
  induction hs with
  | nil => intro db; rfl
  | cons h hs ih => intro db; rw [foldSet_cons, ih]; rfl

lemma foldSet_dirtyUpdFail (hs : List Handler) :
    ∀ db : DBState, (foldSet db hs).dirtyUpdFail = db.dirtyUpdFail := by
  induction hs with
  | nil => intro db; rfl
  | cons h hs ih => intro db; rw [foldSet_cons, ih]; rfl

lemma foldSet_row (hs : List Handler) :
    ∀ db : DBState,
      (foldSet db hs).row =
        db.row.map (fun r => ⟨(hs.map Handler.index).getLastD r.version, r.dirty⟩) := by
  induction hs with
  | nil =>
    intro db
    rw [foldSet_nil]
    cases hrow : db.row with
    | none => rw [Option.map_none']
    | some r => rw [Option.map_some']; rfl
  | cons h hs ih =>
    intro db
    rw [foldSet_cons, ih]
    cases hrow : db.row with
    | none =>
      have hsv : (setVersion db h.index).row = none := by
        simp [setVersion, hrow]
      rw [hsv, Option.map_none', Option.map_none']
    | some r =>
      have hsv : (setVersion db h.index).row = some ⟨h.index, r.dirty⟩ := by
        simp [setVersion, hrow]
      rw [hsv, Option.map_some', Option.map_some', List.map_cons, List.getLastD_cons]

/-- All handlers succeeding and all version updates succeeding, `run`
returns no error, applies every version update in order, and its trace is
exactly the handler indices in order. -/
lemma run_all_success (hs : List Handler) :
    ∀ db : DBState, (∀ h ∈ hs, h.exec = none) → (∀ i, db.versionUpdFail i = none) →
      run db hs = (foldSet db hs, none, hs.map Handler.index) := by
  induction hs with
  | nil => intro db _ _; rfl
  | cons h hs ih =>
    intro db hok hupd
    have hh : h.exec = none := hok h (List.mem_cons_self h hs)
    have hu : db.versionUpdFail h.index = none := hupd h.index
    have ihh := ih (setVersion db h.index)
      (fun g hg => hok g (List.mem_cons_of_mem h hg))
      (fun i => by rw [setVersion_versionUpdFail]; exact hupd i)
    simp [run, hh, hu, ihh, foldSet_cons]

/-- Splitting `run` over an all-success prefix: the prefix's version
writes happen first (in order), its indices head the trace, and then the
rest of the list runs from the updated database. -/
lemma run_append_success (pre : List Handler) :
    ∀ (rest : List Handler) (db : DBState),
      (∀ h ∈ pre, h.exec = none) → (∀ i, db.versionUpdFail i = none) →
      run db (pre ++ rest) =
        ((run (foldSet db pre) rest).1, (run (foldSet db pre) rest).2.1,
          pre.map Handler.index ++ (run (foldSet db pre) rest).2.2) := by
  induction pre with
  | nil => intro rest db _ _; simp [foldSet_nil]
  | cons h hs ih =>
    intro rest db hok hupd
    have hh : h.exec = none := hok h (List.mem_cons_self h hs)
    have hu : db.versionUpdFail h.index = none := hupd h.index
    have ihh := ih rest (setVersion db h.index)
      (fun g hg => hok g (List.mem_cons_of_mem h hg))
      (fun i => by rw [setVersion_versionUpdFail]; exact hupd i)
    simp [run, hh, hu, ihh, foldSet_cons]

/-! ## Lemmas about resolution -/

lemma resolve_indices (env : Env) (dir : String) (mm : List GoMethod) (fns : List String) :
    ∀ (l : List String) (i : Nat),
      (resolveFrom env dir mm fns l i).2 = none →
      (resolveFrom env dir mm fns l i).1.map Handler.index = List.range' (i + 1) l.length := by
  intro l
  induction l with
  | nil => intro i _; simp [resolveFrom, List.range']
  | cons item rest ih =>
    intro i hnone
    simp only [resolveFrom] at hnone ⊢
    by_cases hsql : pathExt item = sqlFileExt
    · rw [if_pos hsql] at hnone ⊢
      by_cases hmem : item ∈ fns
      · rw [if_pos hmem] at hnone ⊢
        cases hcontent : env.fs.content (dir ++ "/" ++ item) with
        | error e =>
          rw [hcontent] at hnone
          exact absurd hnone (by simp)
        | ok sqlContent =>
          rw [hcontent] at hnone
          have h2 : (resolveFrom env dir mm fns rest (i + 1)).2 = none := hnone
          show (newSQLHandler (i + 1) sqlContent (env.txOf (i + 1)) ::
              (resolveFrom env dir mm fns rest (i + 1)).1).map Handler.index =
            List.range' (i + 1) (rest.length + 1)
          rw [List.map_cons, ih (i + 1) h2]
          rw [show List.range' (i + 1) (rest.length + 1) =
            (i + 1) :: List.range' (i + 2) rest.length from rfl]
          rfl
      · rw [if_neg hmem] at hnone
        exact absurd hnone (by simp)
    · rw [if_neg hsql] at hnone ⊢
      by_cases hfunc : pathExt item = funcExt
      · rw [if_pos hfunc] at hnone ⊢
        cases hfind : mm.find? (fun mt => mt.name == item) with
        | none =>
          rw [hfind] at hnone
          exact absurd hnone (by simp)
        | some mt =>
          rw [hfind] at hnone
          have hnone2 : (match checkMethodFormat mt with
              | some e => (([] : List Handler), some e)
              | none => (newGoHandler (i + 1) mt :: (resolveFrom env dir mm fns rest (i + 1)).1,
                  (resolveFrom env dir mm fns rest (i + 1)).2)).2 = none := hnone
          change List.map Handler.index
              (match checkMethodFormat mt with
                | some e => (([] : List Handler), some e)
                | none => (newGoHandler (i + 1) mt :: (resolveFrom env dir mm fns rest (i + 1)).1,
                    (resolveFrom env dir mm fns rest (i + 1)).2)).1 =
            List.range' (i + 1) (item :: rest).length
          cases hfmt : checkMethodFormat mt with
          | some e =>
            rw [hfmt] at hnone2
            exact absurd hnone2 (by simp)
          | none =>
            rw [hfmt] at hnone2
            have h2 : (resolveFrom env dir mm fns rest (i + 1)).2 = none := hnone2
            show (newGoHandler (i + 1) mt ::
                (resolveFrom env dir mm fns rest (i + 1)).1).map Handler.index =
              List.range' (i + 1) (rest.length + 1)
            rw [List.map_cons, ih (i + 1) h2]
            rw [show List.range' (i + 1) (rest.length + 1) =
              (i + 1) :: List.range' (i + 2) rest.length from rfl]
            rfl
      · rw [if_neg hfunc] at hnone
        exact absurd hnone (by simp)

lemma range'_getLastD (n : Nat) : ∀ s : Nat, (List.range' (s + 1) n).getLastD s = s + n := by
  induction n with
  | zero => intro s; simp [List.range']
  | succ k ih =>
    intro s
    rw [List.range']
    rw [List.getLastD_cons]
    rw [ih (s + 1)]
    omega

/-! ## Reduction of `Run` under phase hypotheses -/

lemma getSchemaRecord_some (db : DBState) (r : Schema)
    (h1 : db.createTableErr = none) (h2 : db.queryErr = none) (h3 : db.row = some r) :
    getSchemaRecord db = .ok (r, db) := by
  unfold getSchemaRecord
  rw [h1, h2, h3]

lemma Run_reduce (env : Env) (m : MigrateState) (items : List String)
    (mm : List GoMethod) (fns : List String) (r : Schema) (db1 : DBState)
    (h1 : (getSchemaItems env.fs).1 = .ok items)
    (h2 : getMethods m.applyObjects = .ok mm)
    (h3 : getFileNames env.fs.entries = .ok fns)
    (h4 : checkFileFuncCollision fns mm = none)
    (h5 : getSchemaRecord env.db = .ok (r, db1)) :
    Run env m = afterRecord env m mm fns items r db1 := by
  simp only [Run, h1, h2, h3, h4, h5]

lemma Run_parse_error (env : Env) (m : MigrateState) (e : String)
    (h1 : (getSchemaItems env.fs).1 = .error e) :
    Run env m = ⟨m, env.db, some e, []⟩ := by
  simp only [Run, h1]

lemma getSchemaItems_open (fs : FS) (lines : List String)
    (h : fs.openSchema = .ok lines) :
    getSchemaItems fs = (scanGo lines [] 0, false) := by
  unfold getSchemaItems
  rw [h]

/-! ## Claim theorems -/

/-- C1: for a well-formed list of `N` unique, resolvable items and a fresh
stored state `{version 0, dirty false}`, a single `Run` on a fresh engine
executes the `N` steps exactly once, strictly in declared order (the trace
is exactly `[1, …, N]`, each step's version update applied between
consecutive executions), and ends with no error and stored state
`{version N, dirty false}`. -/
theorem C1_fresh_run_applies_all_steps (env : Env) (m : MigrateState)
    (items : List String) (mm : List GoMethod) (fns : List String) (hs : List Handler)
    (hparse : (getSchemaItems env.fs).1 = .ok items)
    (hmeth : getMethods m.applyObjects = .ok mm)
    (hfiles : getFileNames env.fs.entries = .ok fns)
    (hcol : checkFileFuncCollision fns mm = none)
    (hct : env.db.createTableErr = none)
    (hq : env.db.queryErr = none)
    (hrow : env.db.row = some ⟨0, false⟩)
    (hres : resolveFrom env m.schemaDir mm fns items 0 = (hs, none))
    (hok : ∀ h ∈ hs, h.exec = none)
    (hupd : ∀ i, env.db.versionUpdFail i = none)
    (hfresh : m.handlers = []) :
    (Run env m).err = none ∧ (Run env m).db.row = some ⟨items.length, false⟩ ∧
      (Run env m).trace = List.range' 1 items.length := by
  have hrec : getSchemaRecord env.db = .ok (⟨0, false⟩, env.db) :=
    getSchemaRecord_some env.db ⟨0, false⟩ hct hq hrow
  have hR : Run env m = afterRecord env m mm fns items ⟨0, false⟩ env.db :=
    Run_reduce env m items mm fns ⟨0, false⟩ env.db hparse hmeth hfiles hcol hrec
  have hres0 : resolveFrom env m.schemaDir mm fns (items.drop 0) 0 = (hs, none) := by
    rw [List.drop_zero]; exact hres
  have hAR : afterRecord env m mm fns items ⟨0, false⟩ env.db =
      buildAndRun env m mm fns items 0 env.db := by
    simp [afterRecord]
  have hBR : buildAndRun env m mm fns items 0 env.db =
      ⟨{ m with handlers := m.handlers ++ hs },
        (run env.db (m.handlers ++ hs)).1,
        (run env.db (m.handlers ++ hs)).2.1,
        (run env.db (m.handlers ++ hs)).2.2⟩ := by
    unfold buildAndRun
    rw [hres0]
  rw [hfresh] at hBR
  simp only [List.nil_append] at hBR
  have hrun : run env.db hs = (foldSet env.db hs, none, hs.map Handler.index) :=
    run_all_success hs env.db hok hupd
  have hidx : hs.map Handler.index = List.range' 1 items.length := by
    have h2 : (resolveFrom env m.schemaDir mm fns items 0).2 = none := by rw [hres]
    have h1 : (resolveFrom env m.schemaDir mm fns items 0).1 = hs := by rw [hres]
    have hri := resolve_indices env m.schemaDir mm fns items 0 h2
    rw [h1] at hri
    simpa using hri
  have hgl : (List.range' 1 items.length).getLastD 0 = items.length := by
    have hg := range'_getLastD items.length 0
    simpa using hg
  have hrowf : (foldSet env.db hs).row = some ⟨items.length, false⟩ := by
    rw [foldSet_row, hrow, Option.map_some', hidx, hgl]
  rw [hR, hAR, hBR]
  refine ⟨?_, ?_, ?_⟩
  · show (run env.db hs).2.1 = none
    rw [hrun]
  · show (run env.db hs).1.row = some ⟨items.length, false⟩
    rw [hrun]
    exact hrowf
  · show (run env.db hs).2.2 = List.range' 1 items.length
    rw [hrun]
    exact hidx

/-- Witness for C1: the scenario list of three items, run from a fresh
engine and fresh state, traces `[1, 2, 3]` and ends at
`{version 3, dirty false}` with no error. -/
theorem C1_witness :
    (Run wenv wm).err = none ∧ (Run wenv wm).db.row = some ⟨3, false⟩ ∧
      (Run wenv wm).trace = List.range' 1 3 := by
  have hc := C1_fresh_run_applies_all_steps wenv wm
    ["1_create.sql", "Seed", "2_index.sql"] wmm wfns whs
    rfl rfl rfl rfl rfl rfl rfl rfl (by decide) (fun i => rfl) rfl
  simpa using hc

/-- C2 (code bug evaluation): after a successful first `Run` over
`["1_create.sql", "Seed", "2_index.sql"]`, a second `Run` on the same
engine instance with no new items re-executes all three handlers (trace
`[1, 2, 3]`, not `[]`): the engine's handler list is never cleared
between runs.  The stored record itself ends unchanged at
`{version 3, dirty false}`. -/
theorem C2_second_run_reexecutes_handlers :
    (Run wenv wm).trace = [1, 2, 3] ∧
    (Run { wenv with db := (Run wenv wm).db } (Run wenv wm).engine).trace = [1, 2, 3] ∧
    (Run { wenv with db := (Run wenv wm).db } (Run wenv wm).engine).err = none ∧
    (Run { wenv with db := (Run wenv wm).db } (Run wenv wm).engine).db.row = some ⟨3, false⟩ :=
  ⟨rfl, rfl, rfl, rfl⟩

/-- C3: in `migrate.run`, if the handler at ordinal `i` (index `h.index`)
is the first to fail, and the dirty update itself succeeds, the store
becomes `{version = h.index, dirty = true}`, no later handler executes
(the trace ends at `h.index`), and the handler's error is returned
unchanged. -/
theorem C3_first_failure_marks_dirty (db : DBState) (pre post : List Handler)
    (h : Handler) (e : String) (r : Schema)
    (hpre : ∀ g ∈ pre, g.exec = none)
    (hfail : h.exec = some e)
    (hrow : db.row = some r)
    (hupd : ∀ i, db.versionUpdFail i = none)
    (hdirty : db.dirtyUpdFail h.index = none) :
    run db (pre ++ h :: post) =
      (setDirty (foldSet db pre) h.index, some e, pre.map Handler.index ++ [h.index]) ∧
    (setDirty (foldSet db pre) h.index).row = some ⟨h.index, true⟩ := by
  have hdirty' : (foldSet db pre).dirtyUpdFail h.index = none := by
    rw [foldSet_dirtyUpdFail]; exact hdirty
  have hstep : run (foldSet db pre) (h :: post) =
      (setDirty (foldSet db pre) h.index, some e, [h.index]) := by
    simp [run, hfail, hdirty']
  have happ := run_append_success pre (h :: post) db hpre hupd
  rw [hstep] at happ
  constructor
  · rw [happ]
  · have hfr : (foldSet db pre).row =
        some ⟨(pre.map Handler.index).getLastD r.version, r.dirty⟩ := by
      rw [foldSet_row, hrow, Option.map_some']
    simp [setDirty, hfr]

/-- Witness for C3: handlers `[1 ok, 2 fails "boom", 3 ok]` on a fresh
database: version update 1 applies, the dirty update writes
`{version 2, dirty true}`, handler 3 never executes, `"boom"` is
returned. -/
theorem C3_witness :
    run wdb [⟨1, none⟩, ⟨2, some "boom"⟩, ⟨3, none⟩] =
      (setDirty (foldSet wdb [⟨1, none⟩]) 2, some "boom", [1, 2]) ∧
    (setDirty (foldSet wdb [⟨1, none⟩]) 2).row = some ⟨2, true⟩ :=
  C3_first_failure_marks_dirty wdb [⟨1, none⟩] [⟨3, none⟩] ⟨2, some "boom"⟩ "boom"
    ⟨0, false⟩ (by decide) rfl rfl (fun i => rfl) rfl

/-- C4: when the record read at the start of a run is dirty (and the
phases before the read pass), `Run` fails immediately with the error
citing the stored version; no handler executes, the database is not
mutated, and the engine state is unchanged. -/
theorem C4_dirty_blocks_run (env : Env) (m : MigrateState)
    (items : List String) (mm : List GoMethod) (fns : List String) (v : Nat)
    (hparse : (getSchemaItems env.fs).1 = .ok items)
    (hmeth : getMethods m.applyObjects = .ok mm)
    (hfiles : getFileNames env.fs.entries = .ok fns)
    (hcol : checkFileFuncCollision fns mm = none)
    (hct : env.db.createTableErr = none)
    (hq : env.db.queryErr = none)
    (hrow : env.db.row = some ⟨v, true⟩) :
    (Run env m).err = some (errFindDirtyIndex v) ∧ (Run env m).trace = [] ∧
    (Run env m).db = env.db ∧ (Run env m).engine = m := by
  have hrec : getSchemaRecord env.db = .ok (⟨v, true⟩, env.db) :=
    getSchemaRecord_some env.db ⟨v, true⟩ hct hq hrow
  have hR : Run env m = afterRecord env m mm fns items ⟨v, true⟩ env.db :=
    Run_reduce env m items mm fns ⟨v, true⟩ env.db hparse hmeth hfiles hcol hrec
  rw [hR]
  simp [afterRecord]

/-- Witness for C4: the scenario environment with stored record
`{version 2, dirty true}` fails with `find dirty version 2`, runs
nothing, and leaves database and engine untouched. -/
theorem C4_witness :
    (Run { wenv with db := { wdb with row := some ⟨2, true⟩ } } wm).err =
      some (errFindDirtyIndex 2) ∧
    (Run { wenv with db := { wdb with row := some ⟨2, true⟩ } } wm).trace = [] ∧
    (Run { wenv with db := { wdb with row := some ⟨2, true⟩ } } wm).db =
      { wenv with db := { wdb with row := some ⟨2, true⟩ } }.db ∧
    (Run { wenv with db := { wdb with row := some ⟨2, true⟩ } } wm).engine = wm :=
  C4_dirty_blocks_run { wenv with db := { wdb with row := some ⟨2, true⟩ } } wm
    ["1_create.sql", "Seed", "2_index.sql"] wmm wfns 2
    rfl rfl rfl rfl rfl rfl rfl

/-- C5: with a clean record of version `v` (and the earlier phases
passing): if `v` strictly exceeds the item count, `Run` fails with the
overflow error citing `v` before any step executes and without touching
the store; if `v` equals the item count, the resolved chain is empty and,
on a fresh engine, the run is a no-op success. -/
theorem C5_version_bounds (env : Env) (m : MigrateState)
    (items : List String) (mm : List GoMethod) (fns : List String) (v : Nat)
    (hparse : (getSchemaItems env.fs).1 = .ok items)
    (hmeth : getMethods m.applyObjects = .ok mm)
    (hfiles : getFileNames env.fs.entries = .ok fns)
    (hcol : checkFileFuncCollision fns mm = none)
    (hct : env.db.createTableErr = none)
    (hq : env.db.queryErr = none)
    (hrow : env.db.row = some ⟨v, false⟩) :
    (items.length < v →
      (Run env m).err = some (errSchemaVersionLargeRecord v) ∧
      (Run env m).trace = [] ∧ (Run env m).db = env.db ∧ (Run env m).engine = m) ∧
    (v = items.length → m.handlers = [] →
      (Run env m).err = none ∧ (Run env m).trace = [] ∧
      (Run env m).db = env.db ∧ (Run env m).engine.handlers = []) := by
  have hrec : getSchemaRecord env.db = .ok (⟨v, false⟩, env.db) :=
    getSchemaRecord_some env.db ⟨v, false⟩ hct hq hrow
  have hR : Run env m = afterRecord env m mm fns items ⟨v, false⟩ env.db :=
    Run_reduce env m items mm fns ⟨v, false⟩ env.db hparse hmeth hfiles hcol hrec
  rw [hR]
  constructor
  · intro hlt
    simp [afterRecord, hlt]
  · intro heq hfresh
    subst heq
    have hnlt : ¬ items.length < items.length := lt_irrefl _
    have hdrop : items.drop items.length = [] := List.drop_length items
    have hAR : afterRecord env m mm fns items ⟨items.length, false⟩ env.db =
        buildAndRun env m mm fns items items.length env.db := by
      simp [afterRecord]
    have hres0 : resolveFrom env m.schemaDir mm fns (items.drop items.length) items.length =
        ([], none) := by
      rw [hdrop]
      rfl
    have hBR : buildAndRun env m mm fns items items.length env.db =
        ⟨{ m with handlers := m.handlers ++ [] },
          (run env.db (m.handlers ++ [])).1,
          (run env.db (m.handlers ++ [])).2.1,
          (run env.db (m.handlers ++ [])).2.2⟩ := by
      unfold buildAndRun
      rw [hres0]
    rw [hAR, hBR, hfresh]
    refine ⟨rfl, rfl, rfl, rfl⟩

/-- Witness for C5: with three declared items, stored version 4 fails
with the overflow error and runs nothing; stored version 3 is a no-op
success. -/
theorem C5_witness :
    ((Run { wenv with db := { wdb with row := some ⟨4, false⟩ } } wm).err =
        some (errSchemaVersionLargeRecord 4) ∧
      (Run { wenv with db := { wdb with row := some ⟨4, false⟩ } } wm).trace = []) ∧
    ((Run { wenv with db := { wdb with row := some ⟨3, false⟩ } } wm).err = none ∧
      (Run { wenv with db := { wdb with row := some ⟨3, false⟩ } } wm).trace = []) := by
  have h4 := C5_version_bounds { wenv with db := { wdb with row := some ⟨4, false⟩ } } wm
    ["1_create.sql", "Seed", "2_index.sql"] wmm wfns 4
    rfl rfl rfl rfl rfl rfl rfl
  have h3 := C5_version_bounds { wenv with db := { wdb with row := some ⟨3, false⟩ } } wm
    ["1_create.sql", "Seed", "2_index.sql"] wmm wfns 3
    rfl rfl rfl rfl rfl rfl rfl
  have h4a := h4.1 (by decide)
  have h3a := h3.2 (by decide) rfl
  exact ⟨⟨h4a.1, h4a.2.1⟩, ⟨h3a.1, h3a.2.1⟩⟩

/-- Counterexample to C6 as stated: the list `["a.sql", ""]` has a blank
line at 1-based position 2, yet parsing succeeds (returning `["a.sql"]`)
instead of failing with the empty-record error for position 2 — a blank
final line is tolerated by the scanner's early break. -/
theorem C6_counterexample :
    (getSchemaItems c6fs).1 = .ok ["a.sql"] ∧
    (getSchemaItems c6fs).1 ≠ .error (errSchemaRecordIsEmpty 2) := by
  constructor
  · rfl
  · intro hcontra
    rw [show (getSchemaItems c6fs).1 = .ok ["a.sql"] from rfl] at hcontra
    exact Except.noConfusion hcontra

/-- C6 (amended): if the first blank line of the item list is at 1-based
position `k = pre.length + 1` (lines before it non-empty and duplicate
free): when any line follows it, `Run` fails with the empty-record error
citing exactly `k`, before any step executes and without reading or
mutating the state store; when the blank line is the final line, it is
tolerated and parsing succeeds with the items before it. -/
theorem C6_blank_line_position (env : Env) (m : MigrateState) (pre suf : List String)
    (hopen : env.fs.openSchema = .ok (pre ++ "" :: suf))
    (hne : ∀ l ∈ pre, l ≠ "")
    (hnd : pre.Nodup) :
    (suf ≠ [] →
      (Run env m).err = some (errSchemaRecordIsEmpty (pre.length + 1)) ∧
      (Run env m).trace = [] ∧ (Run env m).db = env.db ∧ (Run env m).engine = m) ∧
    (suf = [] → (getSchemaItems env.fs).1 = .ok pre) := by
  have hgs : getSchemaItems env.fs = (scanGo (pre ++ "" :: suf) [] 0, false) :=
    getSchemaItems_open env.fs _ hopen
  have happ : scanGo (pre ++ "" :: suf) [] 0 =
      scanGo ("" :: suf) (pre.reverse ++ []) (0 + pre.length) :=
    scanGo_append pre ("" :: suf) [] 0 hne hnd (fun l _ => List.not_mem_nil l)
  constructor
  · intro hsuf
    obtain ⟨s, suf', hseq⟩ : ∃ s suf', suf = s :: suf' := by
      cases suf with
      | nil => exact absurd rfl hsuf
      | cons s suf' => exact ⟨s, suf', rfl⟩
    have herr : (getSchemaItems env.fs).1 =
        .error (errSchemaRecordIsEmpty (pre.length + 1)) := by
      rw [hgs]
      show scanGo (pre ++ "" :: suf) [] 0 = _
      rw [happ, hseq, scanGo_blank_mid, Nat.zero_add]
    have hre := Run_parse_error env m _ herr
    rw [hre]
    exact ⟨rfl, rfl, rfl, rfl⟩
  · intro hsuf
    subst hsuf
    rw [hgs]
    show scanGo (pre ++ "" :: []) [] 0 = .ok pre
    rw [happ, scanGo_blank_last]
    simp

/-- Witness for C6 (amended): the list `["a.sql", "", "b.sql"]` fails
with `schema record 2 is empty` and runs nothing; the list
`["a.sql", ""]` parses to `["a.sql"]`. -/
theorem C6_witness :
    ((Run c6env wm).err = some (errSchemaRecordIsEmpty 2) ∧ (Run c6env wm).trace = []) ∧
    (getSchemaItems c6env2.fs).1 = .ok ["a.sql"] := by
  have h1 := C6_blank_line_position c6env wm ["a.sql"] ["b.sql"] rfl (by decide) (by decide)
  have h2 := C6_blank_line_position c6env2 wm ["a.sql"] [] rfl (by decide) (by decide)
  have h1a := h1.1 (by simp)
  exact ⟨⟨h1a.1, h1a.2.1⟩, h2.2 rfl⟩

/-- Counterexample to C7 as stated: the list `["", "x", "a", "a"]`
contains the repeated identifier `"a"`, yet `Run` fails with the
empty-record error for position 1, not with a duplicate-item error
naming `"a"` — the scanner reports the earlier blank line first. -/
theorem C7_counterexample :
    (Run c7env wm).err = some (errSchemaRecordIsEmpty 1) ∧
    errSchemaRecordIsEmpty 1 ≠ errSchemaItemIsDuplicate "a" := by
  constructor
  · rfl
  · decide

/-- C7 (amended): for every item list in which an identifier `d` repeats
and no blank line occurs before the second occurrence of the first
repeated identifier, `Run` fails with the duplicate-item error naming
`d`; no step executes and the state store is neither read nor mutated
(the result holds for every database state and leaves it unchanged). -/
theorem C7_duplicate_item_detected (env : Env) (m : MigrateState)
    (pre suf : List String) (d : String)
    (hopen : env.fs.openSchema = .ok (pre ++ d :: suf))
    (hne : ∀ l ∈ pre, l ≠ "")
    (hnd : pre.Nodup)
    (hd : d ∈ pre) :
    (Run env m).err = some (errSchemaItemIsDuplicate d) ∧ (Run env m).trace = [] ∧
    (Run env m).db = env.db ∧ (Run env m).engine = m := by
  have hgs : getSchemaItems env.fs = (scanGo (pre ++ d :: suf) [] 0, false) :=
    getSchemaItems_open env.fs _ hopen
  have happ : scanGo (pre ++ d :: suf) [] 0 =
      scanGo (d :: suf) (pre.reverse ++ []) (0 + pre.length) :=
    scanGo_append pre (d :: suf) [] 0 hne hnd (fun l _ => List.not_mem_nil l)
  have hdne : d ≠ "" := hne d hd
  have hmem : d ∈ pre.reverse ++ [] := by simp [hd]
  have herr : (getSchemaItems env.fs).1 = .error (errSchemaItemIsDuplicate d) := by
    rw [hgs]
    show scanGo (pre ++ d :: suf) [] 0 = _
    rw [happ, scanGo_dup d suf _ _ hdne hmem]
  have hre := Run_parse_error env m _ herr
  rw [hre]
  exact ⟨rfl, rfl, rfl, rfl⟩

/-- Witness for C7 (amended): two lines both `1_create.sql` fail with the
duplicate-item error naming `1_create.sql`; nothing runs and the database
is untouched. -/
theorem C7_witness :
    (Run c7denv wm).err = some (errSchemaItemIsDuplicate "1_create.sql") ∧
    (Run c7denv wm).trace = [] ∧ (Run c7denv wm).db = c7denv.db ∧
    (Run c7denv wm).engine = wm :=
  C7_duplicate_item_detected c7denv wm ["1_create.sql"] [] "1_create.sql"
    rfl (by decide) (by decide) (by decide)

/-- C8: if the item-list file does not exist, the parser creates the
missing parent directory and an empty list file (the boolean flag) and
returns an empty item sequence with no error; if the open fails for any
other reason, that error is returned instead. -/
theorem C8_missing_list_created (fs : FS) (e : String) :
    (fs.openSchema = .notExist → fs.mkdirErr = none → fs.createErr = none →
      getSchemaItems fs = (.ok [], true)) ∧
    (fs.openSchema = .err e → getSchemaItems fs = (.error e, false)) := by
  constructor
  · intro h1 h2 h3
    unfold getSchemaItems
    rw [h1, h2, h3]
  · intro h1
    unfold getSchemaItems
    rw [h1]

/-- Witness for C8: a missing list file yields `([], created)` with no
error; a permission failure is returned as-is. -/
theorem C8_witness :
    getSchemaItems c8fsN = (.ok [], true) ∧
    getSchemaItems c8fsE = (.error "permission denied", false) :=
  ⟨(C8_missing_list_created c8fsN "permission denied").1 rfl rfl rfl,
    (C8_missing_list_created c8fsE "permission denied").2 rfl⟩

/-- C9: for a non-empty statement whose transaction begins and executes
successfully but whose commit fails, the SQL handler's `Exec` still
returns nil — the commit error is discarded — so the execution loop
treats the step as a success and advances the stored version past it. -/
theorem C9_commit_error_discarded (db : DBState) (idx : Nat) (q : String)
    (tx : TxBehavior) (e : String) (r : Schema)
    (hq : q ≠ "")
    (hb : tx.beginErr = none)
    (hex : tx.execErr = none)
    (_hc : tx.commitErr = some e)
    (hrow : db.row = some r)
    (hupd : db.versionUpdFail idx = none) :
    (newSQLHandler idx q tx).exec = none ∧
    run db [newSQLHandler idx q tx] = (setVersion db idx, none, [idx]) ∧
    (setVersion db idx).row = some ⟨idx, r.dirty⟩ := by
  have hexec : sqlHandlerExec idx q tx = none := by
    simp [sqlHandlerExec, hq, hb, hex]
  refine ⟨hexec, ?_, ?_⟩
  · simp [run, newSQLHandler, hexec, hupd]
  · simp [setVersion, hrow]

/-- Witness for C9: a failing commit on a non-empty statement at index 1
is reported as success and the stored version advances to 1. -/
theorem C9_witness :
    (newSQLHandler 1 "CREATE TABLE t (x int);" ⟨none, none, some "commit failed"⟩).exec =
      none ∧
    run wdb [newSQLHandler 1 "CREATE TABLE t (x int);" ⟨none, none, some "commit failed"⟩] =
      (setVersion wdb 1, none, [1]) ∧
    (setVersion wdb 1).row = some ⟨1, false⟩ :=
  C9_commit_error_discarded wdb 1 "CREATE TABLE t (x int);"
    ⟨none, none, some "commit failed"⟩ "commit failed" ⟨0, false⟩
    (by decide) rfl rfl rfl rfl rfl

/-- C10: handlers registered with `AddHandlers` before a `Run` execute
ahead of all handlers resolved from the item list, in registration order
(the trace starts with their indices), and each one's success writes
`version = its own index` to the store — the cumulative effect is the
fold of `setVersion` over their indices, started from the stored state,
so the version written is independent of the version read at the start
of the run. -/
theorem C10_preregistered_handlers_first (env : Env) (m0 : MigrateState)
    (pre : List Handler) (items : List String) (mm : List GoMethod) (fns : List String)
    (v : Nat) (hs : List Handler)
    (h0 : m0.handlers = [])
    (hparse : (getSchemaItems env.fs).1 = .ok items)
    (hmeth : getMethods m0.applyObjects = .ok mm)
    (hfiles : getFileNames env.fs.entries = .ok fns)
    (hcol : checkFileFuncCollision fns mm = none)
    (hct : env.db.createTableErr = none)
    (hq : env.db.queryErr = none)
    (hrow : env.db.row = some ⟨v, false⟩)
    (hnlt : ¬ items.length < v)
    (hres : resolveFrom env m0.schemaDir mm fns (items.drop v) v = (hs, none))
    (hpre : ∀ h ∈ pre, h.exec = none)
    (hupd : ∀ i, env.db.versionUpdFail i = none) :
    Run env (AddHandlers m0 pre) =
      ⟨{ AddHandlers m0 pre with handlers := pre ++ hs },
        (run (foldSet env.db pre) hs).1,
        (run (foldSet env.db pre) hs).2.1,
        pre.map Handler.index ++ (run (foldSet env.db pre) hs).2.2⟩ ∧
    (foldSet env.db pre).row = some ⟨(pre.map Handler.index).getLastD v, false⟩ := by
  have hrec : getSchemaRecord env.db = .ok (⟨v, false⟩, env.db) :=
    getSchemaRecord_some env.db ⟨v, false⟩ hct hq hrow
  have hR : Run env (AddHandlers m0 pre) =
      afterRecord env (AddHandlers m0 pre) mm fns items ⟨v, false⟩ env.db :=
    Run_reduce env (AddHandlers m0 pre) items mm fns ⟨v, false⟩ env.db
      hparse hmeth hfiles hcol hrec
  have hAR : afterRecord env (AddHandlers m0 pre) mm fns items ⟨v, false⟩ env.db =
      buildAndRun env (AddHandlers m0 pre) mm fns items v env.db := by
    simp [afterRecord, hnlt]
  have hres' : resolveFrom env (AddHandlers m0 pre).schemaDir mm fns (items.drop v) v =
      (hs, none) := hres
  have hBR : buildAndRun env (AddHandlers m0 pre) mm fns items v env.db =
      ⟨{ AddHandlers m0 pre with handlers := (AddHandlers m0 pre).handlers ++ hs },
        (run env.db ((AddHandlers m0 pre).handlers ++ hs)).1,
        (run env.db ((AddHandlers m0 pre).handlers ++ hs)).2.1,
        (run env.db ((AddHandlers m0 pre).handlers ++ hs)).2.2⟩ := by
    unfold buildAndRun
    rw [hres']
  have hacc : (AddHandlers m0 pre).handlers = pre := by
    simp [AddHandlers, h0]
  rw [hR, hAR, hBR, hacc]
  have happ := run_append_success pre hs env.db hpre hupd
  constructor
  · rw [happ]
  · rw [foldSet_row, hrow, Option.map_some']

/-- Witness for C10: a pre-registered handler with index 7 runs before
the three resolved handlers and its success writes version 7 (not a value
derived from the stored version 0). -/
theorem C10_witness :
    Run wenv (AddHandlers wm [⟨7, none⟩]) =
      ⟨{ AddHandlers wm [⟨7, none⟩] with handlers := [⟨7, none⟩] ++ whs },
        (run (foldSet wdb [⟨7, none⟩]) whs).1,
        (run (foldSet wdb [⟨7, none⟩]) whs).2.1,
        [7] ++ (run (foldSet wdb [⟨7, none⟩]) whs).2.2⟩ ∧
    (foldSet wdb [⟨7, none⟩]).row = some ⟨7, false⟩ :=
  C10_preregistered_handlers_first wenv wm [⟨7, none⟩]
    ["1_create.sql", "Seed", "2_index.sql"] wmm wfns 0 whs
    rfl rfl rfl rfl rfl rfl rfl rfl (by decide) rfl (by decide) (fun i => rfl)

end Migrate
